import Mathlib

/-!
Verification of the dividend discount model calculator.

The valuation engine (`modules/calculations.js`) and the validation
module (`modules/validation.js`) are not part of the available sources;
only their callers (`calculator.js`), the state store
(`modules/state.js`) and the rendering modules are. Definitions marked
`Modelled from the spec:` therefore embed those missing modules from the
specification text; the remaining definitions embed the available
JavaScript sources directly. JavaScript numbers are embedded as exact
rationals extended with the three IEEE-754 non-finite outcomes.
-/

namespace DDM

/-- A JavaScript number outcome: a finite value (embedded as an exact
rational), positive infinity, negative infinity, or NaN. Negative zero
is not distinguished from positive zero; in every formula below a zero
denominator arises as `x - x`, `0 ^ n` or a literal, all of which are
positive zeros under IEEE-754 round-to-nearest. -/
inductive FVal where
  | fin (q : ℚ)
  | posInf
  | negInf
  | nan
deriving DecidableEq, Repr

/-- True exactly on finite values, as `isFinite` in JavaScript. -/
def FVal.isFinite : FVal → Bool
  | .fin _ => true
  | _ => false

/-- IEEE-754 division of a finite numerator by a finite denominator:
ordinary division when the denominator is nonzero, a signed infinity
when only the numerator is nonzero, NaN for zero over zero. -/
def fdiv (a b : ℚ) : FVal :=
  if b = 0 then
    if 0 < a then .posInf else if a < 0 then .negInf else .nan
  else .fin (a / b)

/-- IEEE-754 negation. -/
def FVal.neg : FVal → FVal
  | .fin q => .fin (-q)
  | .posInf => .negInf
  | .negInf => .posInf
  | .nan => .nan

/-- IEEE-754 addition: opposite infinities give NaN, NaN propagates. -/
def FVal.add : FVal → FVal → FVal
  | .nan, _ => .nan
  | .fin a, .fin b => .fin (a + b)
  | .fin _, .posInf => .posInf
  | .fin _, .negInf => .negInf
  | .fin _, .nan => .nan
  | .posInf, .fin _ => .posInf
  | .posInf, .posInf => .posInf
  | .posInf, .negInf => .nan
  | .posInf, .nan => .nan
  | .negInf, .fin _ => .negInf
  | .negInf, .posInf => .nan
  | .negInf, .negInf => .negInf
  | .negInf, .nan => .nan

/-- IEEE-754 division of a possibly non-finite value by a finite
rational: a signed infinity keeps or flips its sign (an infinity divided
by zero stays infinite since the zero is positive), NaN propagates. -/
def FVal.divQ : FVal → ℚ → FVal
  | .fin a, q => fdiv a q
  | .posInf, q => if q < 0 then .negInf else .posInf
  | .negInf, q => if q < 0 then .posInf else .negInf
  | .nan, _ => .nan

/-- Modelled from the spec: `modules/calculations.js` is missing from
the sources, so the engine input record follows §3 ValuationInputs —
fraction-scale rates and a non-negative integer high-growth horizon. -/
structure ValuationInputs where
  D0 : ℚ
  required : ℚ
  gConst : ℚ
  gShort : ℚ
  gLong : ℚ
  shortYears : ℕ
deriving DecidableEq, Repr

/-- One point of the cash-flow series (§3 CashFlowPoint). -/
structure CashFlowPoint where
  year : ℕ
  label : String
  dividend : FVal
deriving DecidableEq, Repr

/-- A price together with its 11-point cash-flow series (§3 ModelResult). -/
structure ModelResult where
  price : FVal
  cashFlows : List CashFlowPoint
deriving DecidableEq, Repr

/-- The shared 10-year horizon of §4.5. -/
def horizonYears : ℕ := 10

/-- Modelled from the spec (§3, §4.5): the shared series builder. Year 0
carries the negated price; years 1 to 10 carry the model dividends. -/
def buildCashFlows (price : FVal) (payout : ℕ → ℚ) : List CashFlowPoint :=
  ⟨0, toString 0, price.neg⟩ ::
    (List.range horizonYears).map
      (fun k => ⟨k + 1, toString (k + 1), .fin (payout (k + 1))⟩)

/-- Modelled from the spec (§4.2): constant dividend model, price equals
the current dividend divided by the required return, dividends never
grow. -/
def constantModel (i : ValuationInputs) : ModelResult :=
  let price := fdiv i.D0 i.required
  { price := price, cashFlows := buildCashFlows price (fun _ => i.D0) }

/-- The Gordon perpetuity-growth price formula of §4.3, with IEEE
division semantics. -/
def gordonPrice (d0 r g : ℚ) : FVal :=
  fdiv (d0 * (1 + g)) (r - g)

/-- Modelled from the spec (§4.3): constant growth model. -/
def growthModel (i : ValuationInputs) : ModelResult :=
  let price := gordonPrice i.D0 i.required i.gConst
  { price := price,
    cashFlows := buildCashFlows price (fun t => i.D0 * (1 + i.gConst) ^ t) }

/-- Modelled from the spec (§4.4): display dividend of year `t` in the
two-stage model — short-term growth through year `n`, then long-term
compounding from the last high-growth dividend. -/
def changingDividend (i : ValuationInputs) (t : ℕ) : ℚ :=
  if t ≤ i.shortYears then i.D0 * (1 + i.gShort) ^ t
  else i.D0 * (1 + i.gShort) ^ i.shortYears * (1 + i.gLong) ^ (t - i.shortYears)

/-- Modelled from the spec (§4.4): two-stage price — the sum of the
discounted stage-1 dividends plus the discounted terminal value, every
division and running addition carrying IEEE semantics. -/
def changingPrice (i : ValuationInputs) : FVal :=
  let stage1 := ((List.range i.shortYears).map (fun k =>
      fdiv (i.D0 * (1 + i.gShort) ^ (k + 1))
        ((1 + i.required) ^ (k + 1)))).foldl FVal.add (.fin 0)
  let tv := fdiv (i.D0 * (1 + i.gShort) ^ i.shortYears * (1 + i.gLong))
      (i.required - i.gLong)
  stage1.add (tv.divQ ((1 + i.required) ^ i.shortYears))

/-- Modelled from the spec (§4.4): two-stage model result. -/
def changingModel (i : ValuationInputs) : ModelResult :=
  { price := changingPrice i
    cashFlows := buildCashFlows (changingPrice i) (changingDividend i) }

/-- The three named model results of §4.5. -/
structure AllModels where
  constant : ModelResult
  growth : ModelResult
  changing : ModelResult
deriving DecidableEq, Repr

/-- Modelled from the spec (§4.5): the aggregate entry point. -/
def calculateAllModels (i : ValuationInputs) : AllModels :=
  { constant := constantModel i
    growth := growthModel i
    changing := changingModel i }

/-- The six input fields of §3 / §4.1. -/
inductive Field where
  | D0
  | required
  | gConst
  | gShort
  | gLong
  | shortYears
deriving DecidableEq, Repr

/-- All six fields, in the order the UI wires them (src/calculator.js,
`setupInputListeners`). -/
def allFields : List Field :=
  [.D0, .required, .gConst, .gShort, .gLong, .shortYears]

/-- Modelled from the spec: `modules/validation.js` is missing from the
sources. Raw percent-scale inputs as the UI state holds them
(src/modules/state.js); `shortYears` is a raw number that the rules
require to be an integer between 0 and 10. -/
structure RawInputs where
  D0 : ℚ
  required : ℚ
  gConst : ℚ
  gShort : ℚ
  gLong : ℚ
  shortYears : ℚ
deriving DecidableEq, Repr

/-- The per-field rules of §4.1, stated as propositions. -/
def fieldRule (i : RawInputs) : Field → Prop
  | .D0 => 0 < i.D0
  | .required => 0 < i.required
  | .gConst => i.gConst < i.required
  | .gShort => i.gShort < i.required
  | .gLong => i.gLong < i.required
  | .shortYears => 0 ≤ i.shortYears ∧ i.shortYears ≤ 10 ∧ i.shortYears.den = 1

instance (i : RawInputs) (f : Field) : Decidable (fieldRule i f) := by
  cases f <;> simp only [fieldRule] <;> infer_instance

/-- Modelled from the spec (§4.1): per-field validation. The spec
contract reads `validateField(field, value)`, but the growth-rate rules
compare the value against `requiredReturn`, so the whole record is
passed here. -/
def validateField (i : RawInputs) (f : Field) : Option String :=
  if fieldRule i f then none
  else some (match f with
    | .D0 => "Current dividend must be a positive number"
    | .required => "Required return must be a positive number"
    | .gConst => "Growth rate must be less than required return"
    | .gShort => "Growth rate must be less than required return"
    | .gLong => "Growth rate must be less than required return"
    | .shortYears => "High growth years must be a whole number between 0 and 10")

/-- Modelled from the spec (§4.1, §3 ValidationErrors): the field-keyed
error mapping, one entry per violated rule. -/
def validateAllInputs (i : RawInputs) : List (Field × String) :=
  allFields.filterMap (fun f => (validateField i f).map (fun m => (f, m)))

/-- Modelled from the spec (§4.1): reports whether the mapping is
non-empty. -/
def hasErrors (e : List (Field × String)) : Bool :=
  !e.isEmpty

/-- The application state of src/modules/state.js (lines 6-29), minus
the listener list, which `setState` and `notifyListeners` receive
explicitly below. -/
structure AppState where
  D0 : ℚ
  required : ℚ
  gConst : ℚ
  gShort : ℚ
  gLong : ℚ
  shortYears : ℚ
  selectedModel : String
  viewMode : String
  calculations : Option AllModels
  errors : List (Field × String)
deriving Repr

/-- From src/calculator.js `updateCalculations` (lines 150-177): when
validation errors exist the calculations are cleared and the engine is
never invoked; otherwise the percent fields are divided by 100 and the
engine runs. The Boolean records whether `calculateAllModels` was
invoked on this call. -/
def updateCalculations (s : AppState) : AppState × Bool :=
  if hasErrors s.errors then
    ({ s with calculations := none }, false)
  else
    ({ s with calculations := some (calculateAllModels
        { D0 := s.D0
          required := s.required / 100
          gConst := s.gConst / 100
          gShort := s.gShort / 100
          gLong := s.gLong / 100
          shortYears := s.shortYears.floor.toNat }) }, true)

/-- From src/modules/state.js `setState` (lines 35-38): the partial
record of state properties to merge; `Object.assign` overwrites exactly
the keys present in the update object. -/
structure StateUpdates where
  D0 : Option ℚ := none
  required : Option ℚ := none
  gConst : Option ℚ := none
  gShort : Option ℚ := none
  gLong : Option ℚ := none
  shortYears : Option ℚ := none
  selectedModel : Option String := none
  viewMode : Option String := none
  calculations : Option (Option AllModels) := none
  errors : Option (List (Field × String)) := none

/-- `Object.assign(state, updates)`: each key present in the update
overwrites the state field, absent keys leave it unchanged. -/
def applyUpdates (s : AppState) (u : StateUpdates) : AppState :=
  { D0 := u.D0.getD s.D0
    required := u.required.getD s.required
    gConst := u.gConst.getD s.gConst
    gShort := u.gShort.getD s.gShort
    gLong := u.gLong.getD s.gLong
    shortYears := u.shortYears.getD s.shortYears
    selectedModel := u.selectedModel.getD s.selectedModel
    viewMode := u.viewMode.getD s.viewMode
    calculations := u.calculations.getD s.calculations
    errors := u.errors.getD s.errors }

/-- A state-change listener: a callback that receives the state and may
throw (src/modules/state.js `subscribe`). -/
def Listener : Type :=
  AppState → Except String Unit

/-- From src/modules/state.js `notifyListeners` (lines 60-68): every
callback is applied to the current state once, in list order, inside a
per-callback try/catch; the returned list records each callback outcome
(normal return or caught exception) in order. -/
def notifyListeners (ls : List Listener) (s : AppState) : List (Except String Unit) :=
  ls.map (fun cb => cb s)

/-- From src/modules/state.js `setState` (lines 35-38): merge the
updates into the state, then notify every listener of the updated
state. Returns the updated state and the listener outcomes. -/
def setState (s : AppState) (u : StateUpdates) (ls : List Listener) :
    AppState × List (Except String Unit) :=
  (applyUpdates s u, notifyListeners ls (applyUpdates s u))


/-- Default engine inputs: the initial UI state of src/modules/state.js
scaled to fractions. -/
def sampleInputs : ValuationInputs :=
  { D0 := 5, required := 1/10, gConst := 1/20, gShort := 1/20, gLong := 3/100,
    shortYears := 5 }

/-- A state with one validation error, for the C8 witness. -/
def errState : AppState :=
  { D0 := 0, required := 10, gConst := 5, gShort := 5, gLong := 3, shortYears := 5,
    selectedModel := "all", viewMode := "chart", calculations := none,
    errors := [(Field.D0, "Current dividend must be a positive number")] }

theorem buildCashFlows_length (p : FVal) (f : ℕ → ℚ) :
    (buildCashFlows p f).length = 11 := by
  simp [buildCashFlows, horizonYears]

theorem buildCashFlows_zero (p : FVal) (f : ℕ → ℚ) :
    (buildCashFlows p f)[0]? = some ⟨0, toString 0, p.neg⟩ := rfl

theorem buildCashFlows_succ (p : FVal) (f : ℕ → ℚ) (k : ℕ) (h : k < 10) :
    (buildCashFlows p f)[k + 1]? = some ⟨k + 1, toString (k + 1), .fin (f (k + 1))⟩ := by
  simp [buildCashFlows, horizonYears, List.getElem?_map, List.getElem?_range h]

theorem buildCashFlows_year (p : FVal) (f : ℕ → ℚ) (j : ℕ) (h : j < 11) :
    ((buildCashFlows p f)[j]?).map CashFlowPoint.year = some j := by
  cases j with
  | zero => rfl
  | succ k => rw [buildCashFlows_succ p f k (by omega)]; rfl

theorem buildCashFlows_label (p q : FVal) (f g : ℕ → ℚ) :
    (buildCashFlows p f).map CashFlowPoint.label
      = (buildCashFlows q g).map CashFlowPoint.label := by
  simp [buildCashFlows, List.map_map, Function.comp]

theorem isFinite_fdiv (a b : ℚ) : (fdiv a b).isFinite = true ↔ b ≠ 0 := by
  unfold fdiv
  split
  · next hb =>
    subst hb
    simp only [ne_eq, not_true_eq_false, iff_false]
    split
    · simp [FVal.isFinite]
    · split <;> simp [FVal.isFinite]
  · next hb => simp [FVal.isFinite, hb]

theorem divQ_one (x : FVal) : x.divQ 1 = x := by
  cases x <;> norm_num [FVal.divQ, fdiv]

theorem finZero_add (x : FVal) : FVal.add (.fin 0) x = x := by
  cases x <;> simp [FVal.add]

theorem add_fin_isFinite (x y : FVal) (hx : x.isFinite = true) :
    ((x.add y).isFinite) = true ↔ y.isFinite = true := by
  cases x <;> simp [FVal.isFinite] at hx ⊢ <;> cases y <;> simp [FVal.add, FVal.isFinite]

theorem divQ_isFinite (x : FVal) (q : ℚ) (hq : q ≠ 0) :
    ((x.divQ q).isFinite) = true ↔ x.isFinite = true := by
  cases x with
  | fin a =>
    show (fdiv a q).isFinite = true ↔ (FVal.fin a).isFinite = true
    rw [isFinite_fdiv]
    simp [hq, FVal.isFinite]
  | posInf => simp only [FVal.divQ]; split <;> simp [FVal.isFinite]
  | negInf => simp only [FVal.divQ]; split <;> simp [FVal.isFinite]
  | nan => simp [FVal.divQ, FVal.isFinite]

theorem foldl_add_fin : ∀ (l : List FVal), (∀ x ∈ l, x.isFinite = true) → ∀ q : ℚ,
    ((l.foldl FVal.add (.fin q)).isFinite) = true
  | [], _, _ => rfl
  | a :: t, h, q => by
    have ha := h a (List.mem_cons_self a t)
    cases a with
    | fin qa =>
      show ((t.foldl FVal.add (FVal.add (.fin q) (.fin qa))).isFinite) = true
      exact foldl_add_fin t (fun x hx => h x (List.mem_cons_of_mem _ hx)) (q + qa)
    | posInf => simp [FVal.isFinite] at ha
    | negInf => simp [FVal.isFinite] at ha
    | nan => simp [FVal.isFinite] at ha


theorem changing_isFinite (i : ValuationInputs) (h : 0 < i.required) :
    ((changingPrice i).isFinite = true) ↔ i.gLong ≠ i.required := by
  have hr1 : (0:ℚ) < 1 + i.required := by linarith
  have hpow : ∀ m : ℕ, ((1 + i.required) ^ m) ≠ 0 := fun m => ne_of_gt (pow_pos hr1 m)
  have hstage : (((List.range i.shortYears).map (fun k =>
      fdiv (i.D0 * (1 + i.gShort) ^ (k + 1)) ((1 + i.required) ^ (k + 1)))).foldl
        FVal.add (.fin 0)).isFinite = true := by
    apply foldl_add_fin
    intro x hx
    rw [List.mem_map] at hx
    obtain ⟨k, -, rfl⟩ := hx
    exact (isFinite_fdiv _ _).mpr (hpow (k + 1))
  show ((FVal.add _ (FVal.divQ (fdiv (i.D0 * (1 + i.gShort) ^ i.shortYears * (1 + i.gLong))
      (i.required - i.gLong)) ((1 + i.required) ^ i.shortYears))).isFinite = true) ↔ _
  rw [add_fin_isFinite _ _ hstage, divQ_isFinite _ _ (hpow i.shortYears), isFinite_fdiv,
    sub_ne_zero]
  exact ne_comm


theorem constantModel_cashFlows (i : ValuationInputs) :
    (constantModel i).cashFlows
      = buildCashFlows (fdiv i.D0 i.required) (fun _ => i.D0) := rfl

theorem growthModel_cashFlows (i : ValuationInputs) :
    (growthModel i).cashFlows
      = buildCashFlows (gordonPrice i.D0 i.required i.gConst)
          (fun t => i.D0 * (1 + i.gConst) ^ t) := rfl

theorem changingModel_cashFlows (i : ValuationInputs) :
    (changingModel i).cashFlows
      = buildCashFlows (changingPrice i) (changingDividend i) := rfl

/-- C1: for every input with a positive current dividend the Gordon
growth model prices at D1 / (r - g) with D1 = D0 * (1 + g), the year-t
dividend (t = 1..10) equals D0 * (1 + g) ^ t, and at D0 = 4, r = 0.10,
g = 0.05 the price is exactly 84 (hence within any 1e-9 relative
tolerance). -/
theorem growth_model_correct (i : ValuationInputs) (h : 0 < i.D0) :
    (growthModel i).price = fdiv (i.D0 * (1 + i.gConst)) (i.required - i.gConst)
    ∧ (∀ t : Fin horizonYears,
        ((growthModel i).cashFlows)[t.val + 1]?
          = some ⟨t.val + 1, toString (t.val + 1),
              .fin (i.D0 * (1 + i.gConst) ^ (t.val + 1))⟩)
    ∧ (growthModel
        { D0 := 4, required := 1/10, gConst := 1/20,
          gShort := 0, gLong := 0, shortYears := 0 }).price = .fin 84 := by
  refine ⟨rfl, fun t => buildCashFlows_succ (gordonPrice i.D0 i.required i.gConst)
    (fun t => i.D0 * (1 + i.gConst) ^ t) t.val t.isLt, ?_⟩
  show fdiv (4 * (1 + 1/20)) (1/10 - 1/20) = .fin 84
  rw [fdiv, if_neg (by norm_num)]
  norm_num

theorem growth_model_correct_witness :
    0 < (4:ℚ)
    ∧ (growthModel
        { D0 := 4, required := 1/10, gConst := 1/20,
          gShort := 0, gLong := 0, shortYears := 0 }).price = .fin 84 :=
  ⟨by norm_num,
   (growth_model_correct
      { D0 := 4, required := 1/10, gConst := 1/20,
        gShort := 0, gLong := 0, shortYears := 0 } (by norm_num)).2.2⟩

/-- C2 counterexample: at the self-test input D0 = 5, r = 0.05 and all
growth rates 0.10 the growth-model price is the finite rational -110
even though r ≤ g, so the claimed non-finiteness for r ≤ g fails. -/
theorem price_finiteness_cex :
    (growthModel
      { D0 := 5, required := 1/20, gConst := 1/10,
        gShort := 1/10, gLong := 1/10, shortYears := 5 }).price = .fin (-110)
    ∧ ((growthModel
      { D0 := 5, required := 1/20, gConst := 1/10,
        gShort := 1/10, gLong := 1/10, shortYears := 5 }).price).isFinite = true
    ∧ ((1:ℚ)/20 ≤ 1/10) := by
  have hp : (growthModel
      { D0 := 5, required := 1/20, gConst := 1/10,
        gShort := 1/10, gLong := 1/10, shortYears := 5 }).price = .fin (-110) := by
    show fdiv (5 * (1 + 1/10)) (1/20 - 1/10) = .fin (-110)
    rw [fdiv, if_neg (by norm_num)]
    norm_num
  refine ⟨hp, ?_, by norm_num⟩
  rw [hp]
  rfl

/-- C2 amended: for every input with requiredReturn > 0, the constant
model price is always finite, the growth model price is finite iff
constantGrowth differs from requiredReturn, and the changing model
price is finite iff longTermGrowth differs from requiredReturn; at
equality the price is non-finite, while a growth rate strictly above
the required return yields a finite (negative) price under the IEEE
division semantics of §4.3. -/
theorem price_finiteness (i : ValuationInputs) (h : 0 < i.required) :
    (constantModel i).price.isFinite = true
    ∧ ((growthModel i).price.isFinite = true ↔ i.gConst ≠ i.required)
    ∧ ((changingModel i).price.isFinite = true ↔ i.gLong ≠ i.required) := by
  refine ⟨?_, ?_, changing_isFinite i h⟩
  · show (fdiv i.D0 i.required).isFinite = true
    exact (isFinite_fdiv _ _).mpr (ne_of_gt h)
  · show (fdiv _ (i.required - i.gConst)).isFinite = true ↔ _
    rw [isFinite_fdiv, sub_ne_zero]
    exact ne_comm

theorem price_finiteness_witness :
    0 < sampleInputs.required
    ∧ ((constantModel sampleInputs).price.isFinite = true
      ∧ ((growthModel sampleInputs).price.isFinite = true
          ↔ sampleInputs.gConst ≠ sampleInputs.required)
      ∧ ((changingModel sampleInputs).price.isFinite = true
          ↔ sampleInputs.gLong ≠ sampleInputs.required)) :=
  ⟨by norm_num [sampleInputs], price_finiteness sampleInputs (by norm_num [sampleInputs])⟩

/-- C3: for every input and each of the three models, the year-0 entry
of the cash-flow series carries the negated price, the negation mapping
positive infinity to negative infinity and conversely (and NaN to NaN),
so a non-finite price yields a non-finite year-0 dividend of matching
sign convention. -/
theorem year_zero_neg_price (i : ValuationInputs) :
    ((constantModel i).cashFlows)[0]? = some ⟨0, toString 0, (constantModel i).price.neg⟩
    ∧ ((growthModel i).cashFlows)[0]? = some ⟨0, toString 0, (growthModel i).price.neg⟩
    ∧ ((changingModel i).cashFlows)[0]?
        = some ⟨0, toString 0, (changingModel i).price.neg⟩
    ∧ FVal.neg .posInf = .negInf ∧ FVal.neg .negInf = .posInf ∧ FVal.neg .nan = .nan :=
  ⟨rfl, rfl, rfl, rfl, rfl, rfl⟩

/-- C4: for every input, each of the three model results has exactly 11
cash-flow entries, the year field of entry j equals j for every index,
and the three series carry identical label sequences. -/
theorem series_shape (i : ValuationInputs) :
    ((constantModel i).cashFlows.length = 11
      ∧ (growthModel i).cashFlows.length = 11
      ∧ (changingModel i).cashFlows.length = 11)
    ∧ (∀ j : Fin 11,
        (((constantModel i).cashFlows)[j.val]?).map CashFlowPoint.year = some j.val
        ∧ (((growthModel i).cashFlows)[j.val]?).map CashFlowPoint.year = some j.val
        ∧ (((changingModel i).cashFlows)[j.val]?).map CashFlowPoint.year = some j.val)
    ∧ (constantModel i).cashFlows.map CashFlowPoint.label
        = (growthModel i).cashFlows.map CashFlowPoint.label
    ∧ (growthModel i).cashFlows.map CashFlowPoint.label
        = (changingModel i).cashFlows.map CashFlowPoint.label := by
  rw [constantModel_cashFlows, growthModel_cashFlows, changingModel_cashFlows]
  exact ⟨⟨buildCashFlows_length _ _, buildCashFlows_length _ _, buildCashFlows_length _ _⟩,
    fun j => ⟨buildCashFlows_year _ _ j.val j.isLt, buildCashFlows_year _ _ j.val j.isLt,
      buildCashFlows_year _ _ j.val j.isLt⟩,
    buildCashFlows_label _ _ _ _, buildCashFlows_label _ _ _ _⟩

/-- C5: for every input with positive dividend and positive required
return the constant model prices at exactly D0 / r, every year 1..10
carries the unchanged dividend D0, and at D0 = 5, r = 0.10 the price is
exactly 50. -/
theorem constant_model_correct (i : ValuationInputs) (hd : 0 < i.D0)
    (hr : 0 < i.required) :
    (constantModel i).price = .fin (i.D0 / i.required)
    ∧ (∀ t : Fin horizonYears,
        ((constantModel i).cashFlows)[t.val + 1]?
          = some ⟨t.val + 1, toString (t.val + 1), .fin i.D0⟩)
    ∧ (constantModel
        { D0 := 5, required := 1/10, gConst := 0, gShort := 0,
          gLong := 0, shortYears := 0 }).price = .fin 50 := by
  refine ⟨?_, fun t => buildCashFlows_succ (fdiv i.D0 i.required)
    (fun _ => i.D0) t.val t.isLt, ?_⟩
  · show fdiv i.D0 i.required = .fin (i.D0 / i.required)
    rw [fdiv, if_neg (ne_of_gt hr)]
  · show fdiv 5 (1/10) = .fin 50
    rw [fdiv, if_neg (by norm_num)]
    norm_num

theorem constant_model_correct_witness :
    0 < (5:ℚ) ∧ 0 < ((1:ℚ)/10)
    ∧ (constantModel
        { D0 := 5, required := 1/10, gConst := 0, gShort := 0,
          gLong := 0, shortYears := 0 }).price = .fin 50 :=
  ⟨by norm_num, by norm_num,
   (constant_model_correct
      { D0 := 5, required := 1/10, gConst := 0, gShort := 0,
        gLong := 0, shortYears := 0 } (by norm_num) (by norm_num)).2.2⟩

/-- C6: for every input, the changing model with zero high-growth years
prices identically to a pure Gordon-growth valuation that applies
longTermGrowth from year 1 onward. -/
theorem changing_degenerate_gordon (i : ValuationInputs) :
    (changingModel { i with shortYears := 0 }).price
      = gordonPrice i.D0 i.required i.gLong := by
  show changingPrice { i with shortYears := 0 } = _
  unfold changingPrice gordonPrice
  simp [divQ_one, finZero_add]


theorem validateField_eq_none (i : RawInputs) (f : Field) :
    validateField i f = none ↔ fieldRule i f := by
  unfold validateField
  split
  · next h => simp [h]
  · next h => simp [h]

theorem mem_allFields (f : Field) : f ∈ allFields := by
  cases f <;> simp [allFields]

/-- C7: the validation mapping is empty exactly when every field
satisfies its rule, a field is a key of the mapping exactly when its
rule is violated, and hasErrors holds exactly on non-empty mappings. -/
theorem validation_structure (i : RawInputs) :
    (validateAllInputs i = [] ↔ ∀ f, fieldRule i f)
    ∧ (∀ f : Field, (∃ m, (f, m) ∈ validateAllInputs i) ↔ ¬ fieldRule i f)
    ∧ (∀ e : List (Field × String), hasErrors e = true ↔ e ≠ []) := by
  refine ⟨?_, ?_, ?_⟩
  · rw [validateAllInputs, List.filterMap_eq_nil_iff]
    constructor
    · intro h f
      have hf := h f (mem_allFields f)
      rw [Option.map_eq_none'] at hf
      exact (validateField_eq_none i f).mp hf
    · intro h f _
      rw [Option.map_eq_none']
      exact (validateField_eq_none i f).mpr (h f)
  · intro f
    constructor
    · rintro ⟨m, hm⟩
      rw [validateAllInputs, List.mem_filterMap] at hm
      obtain ⟨a, -, ha⟩ := hm
      rw [Option.map_eq_some'] at ha
      obtain ⟨m1, hm1, heq⟩ := ha
      injection heq with h1 h2
      subst h1
      intro hrule
      rw [(validateField_eq_none i a).mpr hrule] at hm1
      exact Option.noConfusion hm1
    · intro h
      have hne : validateField i f ≠ none :=
        fun hn => h ((validateField_eq_none i f).mp hn)
      obtain ⟨m, hm⟩ := Option.ne_none_iff_exists'.mp hne
      refine ⟨m, ?_⟩
      rw [validateAllInputs, List.mem_filterMap]
      exact ⟨f, mem_allFields f, by rw [hm]; rfl⟩
  · intro e
    cases e <;> simp [hasErrors]

/-- C8: whenever the state holds a non-empty error mapping, one call of
updateCalculations clears the calculations to null and never invokes
the valuation engine (the Boolean component records invocation). -/
theorem calc_withheld_on_errors (s : AppState) (h : hasErrors s.errors = true) :
    updateCalculations s = ({ s with calculations := none }, false) := by
  rw [updateCalculations, if_pos h]

theorem calc_withheld_on_errors_witness :
    hasErrors errState.errors = true
    ∧ updateCalculations errState = ({ errState with calculations := none }, false) :=
  ⟨rfl, calc_withheld_on_errors errState rfl⟩

/-- C9: the engine is a pure function of its input record — calls on
identical inputs return identical results. -/
theorem engine_deterministic (i j : ValuationInputs) (h : i = j) :
    calculateAllModels i = calculateAllModels j := by
  rw [h]

theorem engine_deterministic_witness :
    sampleInputs = sampleInputs
    ∧ calculateAllModels sampleInputs = calculateAllModels sampleInputs :=
  ⟨rfl, engine_deterministic sampleInputs sampleInputs rfl⟩

/-- C10: setState merges the updates into the state before any listener
runs (every listener receives the merged state), every subscribed
listener is invoked exactly once in subscription order (outcome j comes
from listener j applied to the merged state), and a listener exception,
being caught, neither prevents later listeners nor un-applies the
update. -/
theorem setState_notifies_all (s : AppState) (u : StateUpdates) (ls : List Listener) :
    (setState s u ls).1 = applyUpdates s u
    ∧ ((setState s u ls).2).length = ls.length
    ∧ ∀ j : ℕ, ((setState s u ls).2)[j]?
        = (ls[j]?).map (fun cb => cb (applyUpdates s u)) := by
  refine ⟨rfl, ?_, ?_⟩
  · simp [setState, notifyListeners]
  · intro j
    simp [setState, notifyListeners, List.getElem?_map]

end DDM
